import Mathlib

/-!
# Verification of the git-projects synchronization engine and registry

Shallow embedding of `src/git_projects/gitops.py`, the synchronization
engine `sync_projects` and the tracking operation `track_project` of
`src/git_projects/services.py`, together with the pieces of
`src/git_projects/config.py` they use (`Project`, `derive_project`).

External effects (filesystem and git subprocesses) are modelled by a
`World` record of response functions: `pathExists` for `Path.exists()`,
`mkdirParents` for `Path.mkdir(parents=True, exist_ok=True)` (returning
`some msg` when the call raises `OSError(msg)`), and `runClone`,
`runStatus`, `runPull`, `runPush` for the four `subprocess.run` git
invocations, each returning the pair of the process return code and the
captured output stream the Python code reads (`stdout` for `status`,
`stderr` for the others).  `expand` models `Path.expanduser`, which
depends on the user's home directory.

Python exceptions are modelled with `Except`: `GitError` and `OSError`
as the two constructors of `PyErr`.  A function that can only raise
`GitError` (such as `pull_repo` / `push_repo`) returns
`Except String _`, the `String` being the error message.

Each operation additionally returns the list of external operations it
performed (`GitOp`), so that claims of the form "push is never invoked"
are statements about the returned trace.

The thread pool of `sync_projects` is modelled by the sequential
schedule that processes the submitted futures in submission order: each
per-project body `_sync_one` touches the shared `SyncResult` and the
progress callback only inside one lock-protected critical section, so
every schedule produces the same outcome for each project and the same
four collections up to ordering.  The pool size expression
`max(1, max_workers)` on line 176 of `services.py` is embedded as
`workerPoolSize`.
-/

/-- `config.Project`: a tracked project (`clone_url`, `name`, `path`). -/
structure Project where
  clone_url : String
  name : String
  path : String
deriving Repr, DecidableEq

/-- `foundry.RemoteRepo`, restricted to the fields `track_project`
reads (`name` for index lookup, `clone_url` for resolution); the
remaining fields (`repo_url`, `pushed_at`, `default_branch`,
`visibility`, `description`) are never consulted by the code under
verification. -/
structure RemoteRepo where
  name : String
  clone_url : String
deriving Repr, DecidableEq

/-- One external operation performed by the engine: a directory
creation or a git subprocess, with the (expanded) path it targets. -/
inductive GitOp where
  | mkdirParents (path : String)
  | clone (url : String) (path : String)
  | status (path : String)
  | pull (path : String)
  | push (path : String)
deriving Repr, DecidableEq

/-- The exceptions that can escape the git operations: `GitError`
(non-zero git exit, carrying stderr) and `OSError` (filesystem failure,
e.g. from `mkdir`). -/
inductive PyErr where
  | gitError (msg : String)
  | osError (msg : String)
deriving Repr, DecidableEq

/-- The environment: responses of the filesystem and of the git
subprocesses.  Each `run*` field returns the process return code and
the output stream the Python code reads. -/
structure World where
  /-- `Path(path).expanduser()` rendered as a string. -/
  expand : String → String
  /-- `Path(p).exists()` for an expanded path. -/
  pathExists : String → Bool
  /-- `Path(p).parent.mkdir(parents=True, exist_ok=True)` keyed by the
  expanded target path `p`; `some msg` means the call raises
  `OSError(msg)`. -/
  mkdirParents : String → Option String
  /-- `git clone url p`: (returncode, stderr). -/
  runClone : String → String → Int × String
  /-- `git -C p status --porcelain`: (returncode, stdout). -/
  runStatus : String → Int × String
  /-- `git -C p pull`: (returncode, stderr). -/
  runPull : String → Int × String
  /-- `git -C p push`: (returncode, stderr). -/
  runPush : String → Int × String

/-- Python whitespace as stripped by `str.strip()`. -/
def isPySpace (c : Char) : Bool :=
  c == ' ' || c == '\t' || c == '\n' || c == '\r' || c == '\x0b' || c == '\x0c'

/-- Python `str.strip()` on the character list of a string. -/
def pyStripChars (cs : List Char) : List Char :=
  ((cs.dropWhile isPySpace).reverse.dropWhile isPySpace).reverse

/-- `gitops.is_dirty`: runs `git status --porcelain` without checking
the return code and returns whether the stripped stdout is non-empty
(`bool(result.stdout.strip())`).  The Lean type records that no
exception can escape. -/
def is_dirty (w : World) (path : String) : List GitOp × Bool :=
  let ex := w.expand path
  let r := w.runStatus ex
  ([GitOp.status ex], !(pyStripChars r.2.toList).isEmpty)

/-- `gitops.clone_repo`: creates the parent directories (which may
raise `OSError`), then runs `git clone`, raising `GitError stderr` on a
non-zero exit. -/
def clone_repo (w : World) (url : String) (path : String) :
    List GitOp × Except PyErr Unit :=
  let expanded := w.expand path
  match w.mkdirParents expanded with
  | some msg => ([GitOp.mkdirParents expanded], Except.error (PyErr.osError msg))
  | none =>
    let r := w.runClone url expanded
    ([GitOp.mkdirParents expanded, GitOp.clone url expanded],
      if r.1 ≠ 0 then Except.error (PyErr.gitError r.2) else Except.ok ())

/-- `gitops.pull_repo`: runs `git pull`, raising `GitError stderr`
(the `String` error) on a non-zero exit. -/
def pull_repo (w : World) (path : String) : List GitOp × Except String Unit :=
  let ex := w.expand path
  let r := w.runPull ex
  ([GitOp.pull ex], if r.1 ≠ 0 then Except.error r.2 else Except.ok ())

/-- `gitops.push_repo`: runs `git push`, raising `GitError stderr`
(the `String` error) on a non-zero exit. -/
def push_repo (w : World) (path : String) : List GitOp × Except String Unit :=
  let ex := w.expand path
  let r := w.runPush ex
  ([GitOp.push ex], if r.1 ≠ 0 then Except.error r.2 else Except.ok ())

/-- The outcome `_sync_one` records for one project. -/
inductive SyncOutcome where
  | cloned
  | synced
  | skipped
  | errored (msg : String)
deriving Repr, DecidableEq

/-- `services.SyncResult`: the four outcome collections. -/
structure SyncResult where
  cloned : List String
  synced : List String
  skipped : List String
  errored : List (String × String)
deriving Repr, DecidableEq

/-- The status label `_sync_one` passes to the `on_project` callback
for each outcome. -/
def outcomeLabel : SyncOutcome → String
  | SyncOutcome.cloned => "cloned"
  | SyncOutcome.synced => "synced"
  | SyncOutcome.skipped => "skipped (dirty)"
  | SyncOutcome.errored m => "error: " ++ m

/-- `sync_projects._sync_one`, returning the trace of external
operations performed and either the recorded outcome or the exception
that escapes the body (only `GitError` is caught; an `OSError` from
`clone_repo` propagates). -/
def syncOne (w : World) (p : Project) : List GitOp × Except PyErr SyncOutcome :=
  let expanded := w.expand p.path
  if w.pathExists expanded = false then
    let c := clone_repo w p.clone_url p.path
    (c.1,
      match c.2 with
      | Except.ok _ => Except.ok SyncOutcome.cloned
      | Except.error (PyErr.gitError m) => Except.ok (SyncOutcome.errored m)
      | Except.error e => Except.error e)
  else
    let d := is_dirty w p.path
    if d.2 then
      (d.1, Except.ok SyncOutcome.skipped)
    else
      let pl := pull_repo w p.path
      match pl.2 with
      | Except.error m => (d.1 ++ pl.1, Except.ok (SyncOutcome.errored m))
      | Except.ok _ =>
        let ps := push_repo w p.path
        (d.1 ++ pl.1 ++ ps.1,
          match ps.2 with
          | Except.ok _ => Except.ok SyncOutcome.synced
          | Except.error m => Except.ok (SyncOutcome.errored m))

/-- Appending one project's outcome to the shared `SyncResult`
(the lock-protected `result.<list>.append` calls; processing order
means the later-built lists are consed during the return). -/
def addOutcome (name : String) (oc : SyncOutcome) (r : SyncResult) : SyncResult :=
  match oc with
  | SyncOutcome.cloned => { r with cloned := name :: r.cloned }
  | SyncOutcome.synced => { r with synced := name :: r.synced }
  | SyncOutcome.skipped => { r with skipped := name :: r.skipped }
  | SyncOutcome.errored m => { r with errored := (name, m) :: r.errored }

/-- `services.sync_projects` under the sequential schedule: every
submitted future runs to completion (the executor's shutdown waits for
all of them, so the whole trace always happens), and the aggregated
result together with the list of `on_project` callback invocations is
returned unless some project body raised an uncaught exception, in
which case `future.result()` re-raises it. -/
def sync_projects (w : World) : List Project →
    List GitOp × Except PyErr (SyncResult × List (String × String))
  | [] => ([], Except.ok (⟨[], [], [], []⟩, []))
  | p :: rest =>
    let s := syncOne w p
    let r := sync_projects w rest
    (s.1 ++ r.1,
      match s.2 with
      | Except.error e => Except.error e
      | Except.ok oc =>
        match r.2 with
        | Except.error e => Except.error e
        | Except.ok (res, evs) =>
          Except.ok (addOutcome p.name oc res, (p.name, outcomeLabel oc) :: evs))

/-- The pool size of the `ThreadPoolExecutor` on line 176 of
`services.py`: `max(1, max_workers)`. -/
def workerPoolSize (max_workers : Int) : Int := max 1 max_workers

/-- All names recorded in a `SyncResult`, across the four
collections. -/
def resultNames (r : SyncResult) : List String :=
  r.cloned ++ r.synced ++ r.skipped ++ r.errored.map Prod.fst

/-- The four collections of a `SyncResult` are pairwise disjoint by
project name. -/
def namesPairwiseDisjoint (r : SyncResult) : Prop :=
  r.cloned.Disjoint r.synced ∧ r.cloned.Disjoint r.skipped ∧
    r.cloned.Disjoint (r.errored.map Prod.fst) ∧
    r.synced.Disjoint r.skipped ∧
    r.synced.Disjoint (r.errored.map Prod.fst) ∧
    r.skipped.Disjoint (r.errored.map Prod.fst)

/-- The projects whose own `_sync_one` run records `Cloned`,
independently of every other project. -/
def clonedOf (w : World) (ps : List Project) : List String :=
  ps.filterMap fun p =>
    match (syncOne w p).2 with
    | Except.ok SyncOutcome.cloned => some p.name
    | _ => none

/-- The projects whose own `_sync_one` run records `Synced`. -/
def syncedOf (w : World) (ps : List Project) : List String :=
  ps.filterMap fun p =>
    match (syncOne w p).2 with
    | Except.ok SyncOutcome.synced => some p.name
    | _ => none

/-- The projects whose own `_sync_one` run records `Skipped`. -/
def skippedOf (w : World) (ps : List Project) : List String :=
  ps.filterMap fun p =>
    match (syncOne w p).2 with
    | Except.ok SyncOutcome.skipped => some p.name
    | _ => none

/-- The projects whose own `_sync_one` run records `Errored`, with the
message. -/
def erroredOf (w : World) (ps : List Project) : List (String × String) :=
  ps.filterMap fun p =>
    match (syncOne w p).2 with
    | Except.ok (SyncOutcome.errored m) => some (p.name, m)
    | _ => none

/-- The `on_project` callback invocations, one per project whose body
completed, each determined by that project's own outcome. -/
def eventsOf (w : World) (ps : List Project) : List (String × String) :=
  ps.filterMap fun p =>
    match (syncOne w p).2 with
    | Except.ok oc => some (p.name, outcomeLabel oc)
    | Except.error _ => none

/-- Does `sub` occur as a contiguous block of the second list? -/
def listHasInfix (sub : List Char) : List Char → Bool
  | [] => sub.isEmpty
  | c :: cs => List.isPrefixOf sub (c :: cs) || listHasInfix sub cs

/-- Python substring membership `sub in s`. -/
def strContains (s sub : String) : Bool :=
  listHasInfix sub.toList s.toList

/-- Python `str.startswith`. -/
def pyStartsWith (s pre : String) : Bool :=
  List.isPrefixOf pre.toList s.toList

/-- Python `str.endswith`. -/
def pyEndsWith (s suffix : String) : Bool :=
  List.isSuffixOf suffix.toList s.toList

/-- Python `str.lower` (ASCII case folding suffices for repo names). -/
def pyLower (s : String) : String :=
  String.mk (s.toList.map Char.toLower)

/-- `services._is_url`: a clone URL rather than a repo name. -/
def is_url (s : String) : Bool :=
  strContains s "://" || pyStartsWith s "git@"

/-- Python `str.strip("/")`: drop `/` characters from both ends. -/
def stripSlashes (s : String) : String :=
  String.mk (((s.toList.dropWhile (· == '/')).reverse.dropWhile (· == '/')).reverse)

/-- Python `str.rstrip("/")`: drop trailing `/` characters. -/
def rstripSlashes (s : String) : String :=
  String.mk ((s.toList.reverse.dropWhile (· == '/')).reverse)

/-- Python `str.removesuffix`. -/
def removeSuffixStr (s suffix : String) : String :=
  if pyEndsWith s suffix then
    String.mk (s.toList.take (s.toList.length - suffix.toList.length))
  else s

/-- Split a character list on a separator character, Python
`str.split(sep)` (always at least one part; empty input gives one
empty part). -/
def splitChars (sep : Char) : List Char → List (List Char)
  | [] => [[]]
  | c :: cs =>
    let r := splitChars sep cs
    if c == sep then [] :: r
    else
      match r with
      | [] => [[c]]
      | h :: t => (c :: h) :: t

/-- The last `/`-separated component, Python `s.split("/")[-1]` (and
`s.rsplit("/", 1)[-1]`, which agree). -/
def lastSlashComponent (s : String) : String :=
  String.mk ((splitChars '/' s.toList).getLastD [])

/-- Python `sep.join(xs)`. -/
def strJoin (sep : String) : List String → String
  | [] => ""
  | [x] => x
  | x :: xs => x ++ sep ++ strJoin sep xs

/-- Split at the first occurrence of a character: the parts strictly
before and strictly after it, or `none` when absent. -/
def breakOnChar (sep : Char) : List Char → Option (List Char × List Char)
  | [] => none
  | c :: cs =>
    if c == sep then some ([], cs)
    else
      match breakOnChar sep cs with
      | some (a, b) => some (c :: a, b)
      | none => none

/-- Split at the first occurrence of a (non-empty) character sequence:
the parts strictly before and strictly after it, or `none` when
absent. -/
def breakOnSub (sub : List Char) : List Char → Option (List Char × List Char)
  | [] => none
  | c :: cs =>
    if List.isPrefixOf sub (c :: cs) then some ([], (c :: cs).drop sub.length)
    else
      match breakOnSub sub cs with
      | some (a, b) => some (c :: a, b)
      | none => none

/-- `config._SSH_RE.match` for the pattern `^git@[^:]+:(.+)$`,
returning capture group 1: everything after the first colon that
follows a non-empty host part (the greedy `[^:]+` necessarily stops at
the first colon). -/
def sshMatch (s : String) : Option String :=
  if pyStartsWith s "git@" then
    match breakOnChar ':' (s.toList.drop 4) with
    | none => none
    | some (h, g) => if !h.isEmpty && !g.isEmpty then some (String.mk g) else none
  else none

/-- Modelled from the spec and the Python standard library:
`urllib.parse.urlparse(url).path` for clone-URL shapes — the part
from the first `/` after the scheme and network location, queries and
fragments stripped; a string without `://` is all path (clone URLs
carry no user/port subtleties the name derivation would see). -/
def urlparsePath (url : String) : String :=
  let noFrag := url.toList.takeWhile (· != '#')
  let noQuery := noFrag.takeWhile (· != '?')
  match breakOnSub "://".toList noQuery with
  | none => String.mk noQuery
  | some (_, after) =>
    match breakOnChar '/' after with
    | none => ""
    | some (_, rest) => String.mk ('/' :: rest)

/-- `config.derive_project`: project name and relative path derived
from a clone URL (HTTPS or SSH SCP-style). -/
def derive_project (clone_url : String) : Project :=
  let path_part :=
    match sshMatch clone_url with
    | some g => g
    | none => urlparsePath clone_url
  let name := lastSlashComponent (removeSuffixStr (stripSlashes path_part) ".git")
  { clone_url := clone_url, name := name, path := name }

/-- Lines 68–91 of `services.track_project`: resolve the argument to a
clone URL, either directly (URL shape) or through the local index
(exact name match first, then case-insensitive substring match), with
the `ValueError` messages of the source as errors. -/
def resolve_clone_url (idx : List RemoteRepo) (name_or_url : String) :
    Except String String :=
  if is_url name_or_url then Except.ok name_or_url
  else if idx.isEmpty then
    Except.error "Index is empty. Run git-projects remote fetch first."
  else
    let exact := idx.filter fun r => r.name == name_or_url
    match exact with
    | [r] => Except.ok r.clone_url
    | _ :: _ :: _ =>
      Except.error ("Ambiguous: " ++ name_or_url ++ " matches multiple repos: "
        ++ strJoin ", " (exact.map RemoteRepo.clone_url))
    | [] =>
      let fuzzy := idx.filter fun r =>
        strContains (pyLower r.name) (pyLower name_or_url)
      match fuzzy with
      | [r] => Except.ok r.clone_url
      | _ :: _ :: _ =>
        Except.error ("Ambiguous: " ++ name_or_url ++ " matches: "
          ++ strJoin ", " (fuzzy.map RemoteRepo.name)
          ++ ". Be more specific.")
      | [] =>
        Except.error ("No repo named " ++ name_or_url
          ++ " in index. Run git-projects remote list to browse.")

/-- `services.track_project` with the persisted state passed
explicitly: `idx` is `index.load_index()`, `projects` is
`config.load_projects()`; on success the pair of the list handed to
`config.save_projects` and the returned project. -/
def track_project (idx : List RemoteRepo) (projects : List Project)
    (name_or_url : String) (path : Option String) :
    Except String (List Project × Project) :=
  match resolve_clone_url idx name_or_url with
  | Except.error e => Except.error e
  | Except.ok clone_url =>
    if projects.any fun p => p.clone_url == clone_url then
      Except.error ("Already tracking: " ++ clone_url)
    else
      let project :=
        match path with
        | some pth =>
          let parsed_name :=
            lastSlashComponent (removeSuffixStr (rstripSlashes clone_url) ".git")
          { clone_url := clone_url, name := parsed_name, path := pth }
        | none => derive_project clone_url
      Except.ok (projects ++ [project], project)

/-- A mixed concrete environment: `/r/a` absent with a succeeding
clone, `/r/b` present and clean with succeeding pull and push, `/r/c`
present and dirty, `/r/d` absent with a clone failing on exit code 128
and stderr `"no access"`. -/
def wMixed : World where
  expand := fun s => s
  pathExists := fun s => s == "/r/b" || s == "/r/c"
  mkdirParents := fun _ => none
  runClone := fun _ p => if p == "/r/d" then (128, "no access") else (0, "")
  runStatus := fun p => if p == "/r/c" then (0, " M x.txt") else (0, "")
  runPull := fun _ => (0, "")
  runPush := fun _ => (0, "")

/-- Four projects named `a`–`d` living under `/r`. -/
def psMixed : List Project :=
  [⟨"u/a", "a", "/r/a"⟩, ⟨"u/b", "b", "/r/b"⟩, ⟨"u/c", "c", "/r/c"⟩,
    ⟨"u/d", "d", "/r/d"⟩]

/-- An environment in which every path is absent and every clone fails
with exit code 1 and stderr `"boom"`. -/
def wAllFail : World where
  expand := fun s => s
  pathExists := fun _ => false
  mkdirParents := fun _ => none
  runClone := fun _ _ => (1, "boom")
  runStatus := fun _ => (0, "")
  runPull := fun _ => (0, "")
  runPush := fun _ => (0, "")

/-- Two projects for the all-failing environment. -/
def psAllFail : List Project := [⟨"u/a", "a", "/r/a"⟩, ⟨"u/b", "b", "/r/b"⟩]

/-- An environment in which the path is absent and creating the parent
directories raises `OSError("Permission denied")`. -/
def wFsFail : World where
  expand := fun s => s
  pathExists := fun _ => false
  mkdirParents := fun _ => some "Permission denied"
  runClone := fun _ _ => (0, "")
  runStatus := fun _ => (0, "")
  runPull := fun _ => (0, "")
  runPush := fun _ => (0, "")

/-- The single project of the filesystem-failure scenario. -/
def pFsFail : Project := ⟨"u/a", "a", "/r/a"⟩

/-- An environment with a present, clean path whose `git pull` fails
with exit code 1 and stderr `"conflict"`. -/
def wPullFail : World where
  expand := fun s => s
  pathExists := fun _ => true
  mkdirParents := fun _ => none
  runClone := fun _ _ => (0, "")
  runStatus := fun _ => (0, "")
  runPull := fun _ => (1, "conflict")
  runPush := fun _ => (0, "")

/-- An environment with a present path whose `git status --porcelain`
itself fails (exit code 128, empty stdout — e.g. not a git
repository); the subsequent pull then fails the same way. -/
def wStatusFail : World where
  expand := fun s => s
  pathExists := fun _ => true
  mkdirParents := fun _ => none
  runClone := fun _ _ => (0, "")
  runStatus := fun _ => (128, "")
  runPull := fun _ => (128, "fatal: not a git repository")
  runPush := fun _ => (0, "")

/-- The single project of the present-path scenarios. -/
def pPresent : Project := ⟨"u/a", "a", "/r/a"⟩

/-- The dirty project of the mixed environment. -/
def pDirtyC : Project := ⟨"u/c", "c", "/r/c"⟩

/-- The absent-path project of the mixed environment. -/
def pAbsentA : Project := ⟨"u/a", "a", "/r/a"⟩

/-- The `SyncResult` the mixed environment produces. -/
def resMixed : SyncResult := ⟨["a"], ["b"], ["c"], [("d", "no access")]⟩

/-- The callback invocations the mixed environment produces. -/
def evsMixed : List (String × String) :=
  [("a", "cloned"), ("b", "synced"), ("c", "skipped (dirty)"),
    ("d", "error: no access")]

/-! ## Helper lemmas -/

theorem resultNames_addOutcome (n : String) (oc : SyncOutcome) (r : SyncResult) :
    List.Perm (resultNames (addOutcome n oc r)) (n :: resultNames r) := by
  cases oc with
  | cloned =>
    simp only [resultNames, addOutcome, List.cons_append, List.append_assoc]
    exact List.Perm.refl _
  | synced =>
    simp only [resultNames, addOutcome, List.append_assoc]
    exact List.perm_middle
  | skipped =>
    simp only [resultNames, addOutcome, List.append_assoc]
    exact (List.Perm.append_left _ List.perm_middle).trans List.perm_middle
  | errored m =>
    simp only [resultNames, addOutcome, List.map_cons, List.append_assoc]
    exact ((List.Perm.append_left _ (List.Perm.append_left _ List.perm_middle)).trans
      (List.Perm.append_left _ List.perm_middle)).trans List.perm_middle

theorem sync_projects_cons (w : World) (p : Project) (rest : List Project) :
    sync_projects w (p :: rest) =
      ((syncOne w p).1 ++ (sync_projects w rest).1,
        match (syncOne w p).2 with
        | Except.error e => Except.error e
        | Except.ok oc =>
          match (sync_projects w rest).2 with
          | Except.error e => Except.error e
          | Except.ok (res, evs) =>
            Except.ok (addOutcome p.name oc res, (p.name, outcomeLabel oc) :: evs)) :=
  rfl

theorem syncOne_absent_oserr (w : World) (p : Project) (m : String)
    (hex : w.pathExists (w.expand p.path) = false)
    (hmk : w.mkdirParents (w.expand p.path) = some m) :
    syncOne w p = ([GitOp.mkdirParents (w.expand p.path)],
      Except.error (PyErr.osError m)) := by
  simp [syncOne, clone_repo, hex, hmk]

theorem syncOne_absent_cloned (w : World) (p : Project)
    (hex : w.pathExists (w.expand p.path) = false)
    (hmk : w.mkdirParents (w.expand p.path) = none)
    (hrc : (w.runClone p.clone_url (w.expand p.path)).1 = 0) :
    syncOne w p = ([GitOp.mkdirParents (w.expand p.path),
      GitOp.clone p.clone_url (w.expand p.path)], Except.ok SyncOutcome.cloned) := by
  simp [syncOne, clone_repo, hex, hmk, hrc]

theorem syncOne_absent_gitfail (w : World) (p : Project)
    (hex : w.pathExists (w.expand p.path) = false)
    (hmk : w.mkdirParents (w.expand p.path) = none)
    (hrc : (w.runClone p.clone_url (w.expand p.path)).1 ≠ 0) :
    syncOne w p = ([GitOp.mkdirParents (w.expand p.path),
      GitOp.clone p.clone_url (w.expand p.path)],
      Except.ok (SyncOutcome.errored (w.runClone p.clone_url (w.expand p.path)).2)) := by
  simp [syncOne, clone_repo, hex, hmk, hrc]

theorem syncOne_dirty_eq (w : World) (p : Project)
    (hex : w.pathExists (w.expand p.path) = true)
    (hd : pyStripChars (w.runStatus (w.expand p.path)).2.toList ≠ []) :
    syncOne w p = ([GitOp.status (w.expand p.path)], Except.ok SyncOutcome.skipped) := by
  simp [syncOne, is_dirty, hex, hd]
  intro h
  exact absurd h hd

theorem syncOne_clean_pullfail (w : World) (p : Project)
    (hex : w.pathExists (w.expand p.path) = true)
    (hd : pyStripChars (w.runStatus (w.expand p.path)).2.toList = [])
    (hrc : (w.runPull (w.expand p.path)).1 ≠ 0) :
    syncOne w p = ([GitOp.status (w.expand p.path), GitOp.pull (w.expand p.path)],
      Except.ok (SyncOutcome.errored (w.runPull (w.expand p.path)).2)) := by
  simp [syncOne, is_dirty, pull_repo, hex, hd, hrc]
  exact hd

theorem syncOne_clean_synced (w : World) (p : Project)
    (hex : w.pathExists (w.expand p.path) = true)
    (hd : pyStripChars (w.runStatus (w.expand p.path)).2.toList = [])
    (hpull : (w.runPull (w.expand p.path)).1 = 0)
    (hpush : (w.runPush (w.expand p.path)).1 = 0) :
    syncOne w p = ([GitOp.status (w.expand p.path), GitOp.pull (w.expand p.path),
      GitOp.push (w.expand p.path)], Except.ok SyncOutcome.synced) := by
  simp [syncOne, is_dirty, pull_repo, push_repo, hex, hd, hpull, hpush]
  exact hd

theorem syncOne_clean_pushfail (w : World) (p : Project)
    (hex : w.pathExists (w.expand p.path) = true)
    (hd : pyStripChars (w.runStatus (w.expand p.path)).2.toList = [])
    (hpull : (w.runPull (w.expand p.path)).1 = 0)
    (hpush : (w.runPush (w.expand p.path)).1 ≠ 0) :
    syncOne w p = ([GitOp.status (w.expand p.path), GitOp.pull (w.expand p.path),
      GitOp.push (w.expand p.path)],
      Except.ok (SyncOutcome.errored (w.runPush (w.expand p.path)).2)) := by
  simp [syncOne, is_dirty, pull_repo, push_repo, hex, hd, hpull, hpush]
  exact hd

theorem sync_ok_cons_inv {w : World} {p : Project} {rest : List Project}
    {res : SyncResult} {evs : List (String × String)}
    (h : (sync_projects w (p :: rest)).2 = Except.ok (res, evs)) :
    ∃ oc res0 evs0, (syncOne w p).2 = Except.ok oc ∧
      (sync_projects w rest).2 = Except.ok (res0, evs0) ∧
      res = addOutcome p.name oc res0 ∧
      evs = (p.name, outcomeLabel oc) :: evs0 := by
  rw [sync_projects_cons] at h
  cases hs : (syncOne w p).2 with
  | error e => rw [hs] at h; simp at h
  | ok oc =>
    rw [hs] at h
    cases hr : (sync_projects w rest).2 with
    | error e => rw [hr] at h; simp at h
    | ok pr =>
      obtain ⟨res0, evs0⟩ := pr
      rw [hr] at h
      simp only [Except.ok.injEq, Prod.mk.injEq] at h
      exact ⟨oc, res0, evs0, rfl, rfl, h.1.symm, h.2.symm⟩

theorem sync_ok_perm {w : World} : ∀ {ps : List Project} {res : SyncResult}
    {evs : List (String × String)},
    (sync_projects w ps).2 = Except.ok (res, evs) →
    List.Perm (resultNames res) (ps.map Project.name) := by
  intro ps
  induction ps with
  | nil =>
    intro res evs h
    simp only [sync_projects, Except.ok.injEq, Prod.mk.injEq] at h
    rw [← h.1]
    simp [resultNames]
  | cons p rest ih =>
    intro res evs h
    obtain ⟨oc, res0, evs0, _, hr, hres, _⟩ := sync_ok_cons_inv h
    subst hres
    exact (resultNames_addOutcome p.name oc res0).trans
      (List.Perm.cons p.name (ih hr))

theorem namesPairwiseDisjoint_of_nodup {r : SyncResult}
    (h : (resultNames r).Nodup) : namesPairwiseDisjoint r := by
  simp only [resultNames, List.append_assoc, List.nodup_append,
    List.disjoint_append_right] at h
  unfold namesPairwiseDisjoint
  tauto

theorem syncOne_ok_of_no_oserr {w : World} (p : Project)
    (hmk : ∀ s, w.mkdirParents s = none) :
    (syncOne w p).2 = Except.ok (match (syncOne w p).2 with
      | Except.ok oc => oc
      | Except.error _ => SyncOutcome.cloned) := by
  by_cases hex : w.pathExists (w.expand p.path) = false
  · by_cases hrc : (w.runClone p.clone_url (w.expand p.path)).1 = 0
    · rw [syncOne_absent_cloned w p hex (hmk _) hrc]
    · rw [syncOne_absent_gitfail w p hex (hmk _) hrc]
  · rw [Bool.not_eq_false] at hex
    by_cases hd : pyStripChars (w.runStatus (w.expand p.path)).2.toList = []
    · by_cases hpull : (w.runPull (w.expand p.path)).1 = 0
      · by_cases hpush : (w.runPush (w.expand p.path)).1 = 0
        · rw [syncOne_clean_synced w p hex hd hpull hpush]
        · rw [syncOne_clean_pushfail w p hex hd hpull hpush]
      · rw [syncOne_clean_pullfail w p hex hd hpull]
    · rw [syncOne_dirty_eq w p hex hd]

theorem sync_projects_char (w : World) (hmk : ∀ s, w.mkdirParents s = none)
    (ps : List Project) :
    (sync_projects w ps).2 = Except.ok
      (⟨clonedOf w ps, syncedOf w ps, skippedOf w ps, erroredOf w ps⟩,
        eventsOf w ps) := by
  induction ps with
  | nil => rfl
  | cons p rest ih =>
    obtain ⟨oc, hoc⟩ : ∃ oc, (syncOne w p).2 = Except.ok oc :=
      ⟨_, syncOne_ok_of_no_oserr p hmk⟩
    simp only [sync_projects_cons, hoc, ih]
    cases oc <;>
      simp [clonedOf, syncedOf, skippedOf, erroredOf, eventsOf, addOutcome,
        List.filterMap_cons, hoc]

/-! ## Claim theorems -/

/-- C1: whenever `sync_projects` returns a `SyncResult`, the names in
its four collections are a permutation of the input projects' names
(each input project appears exactly once, no duplicates, no
omissions), so the four lengths sum to the input length, and when the
input has no duplicate project names the four collections are pairwise
disjoint by name. -/
theorem sync_result_partitions_input (w : World) (ps : List Project)
    (res : SyncResult) (evs : List (String × String))
    (h : (sync_projects w ps).2 = Except.ok (res, evs)) :
    List.Perm (resultNames res) (ps.map Project.name) ∧
    res.cloned.length + res.synced.length + res.skipped.length +
      res.errored.length = ps.length ∧
    ((ps.map Project.name).Nodup → namesPairwiseDisjoint res) := by
  have hperm := sync_ok_perm h
  refine ⟨hperm, ?_, ?_⟩
  · have hlen := hperm.length_eq
    simp [resultNames, List.length_append, List.length_map] at hlen
    omega
  · intro hnd
    exact namesPairwiseDisjoint_of_nodup (hperm.symm.nodup hnd)

theorem sync_result_partitions_input_witness :
    List.Perm (resultNames resMixed) (psMixed.map Project.name) ∧
    resMixed.cloned.length + resMixed.synced.length + resMixed.skipped.length +
      resMixed.errored.length = psMixed.length ∧
    ((psMixed.map Project.name).Nodup → namesPairwiseDisjoint resMixed) :=
  sync_result_partitions_input wMixed psMixed resMixed evsMixed (by rfl)

/-- C4: when the filesystem raises no `OSError`, no `GitError`
propagates out of `sync_projects`: it returns `Except.ok` on every
input (even when every project errors), and each of the four
collections — and the callback list — is the per-project
`filterMap` of that project's own `_sync_one` outcome, so one
project's git failure can neither abort nor alter any other project's
processing. -/
theorem gitError_isolated_never_propagates (w : World) (ps : List Project)
    (hmk : ∀ s, w.mkdirParents s = none) :
    (sync_projects w ps).2 = Except.ok
      (⟨clonedOf w ps, syncedOf w ps, skippedOf w ps, erroredOf w ps⟩,
        eventsOf w ps) :=
  sync_projects_char w hmk ps

theorem gitError_isolated_never_propagates_witness :
    (sync_projects wAllFail psAllFail).2 = Except.ok
      (⟨[], [], [], [("a", "boom"), ("b", "boom")]⟩,
        [("a", "error: boom"), ("b", "error: boom")]) :=
  (gitError_isolated_never_propagates wAllFail psAllFail (fun _ => rfl)).trans
    (by rfl)

/-- C7: on the empty project list `sync_projects` performs no external
operation (empty trace), returns the all-empty `SyncResult`, and
invokes the progress callback zero times (empty event list). -/
theorem empty_input_no_effects (w : World) :
    sync_projects w [] = ([], Except.ok (⟨[], [], [], []⟩, [])) := rfl

/-- C8: the worker pool size of `sync_projects` is `max(1,
max_workers)` — at least one worker for every requested value, and
exactly one when the request is below one — and (absent `OSError`)
every project is still processed to completion with exactly one
outcome each. -/
theorem worker_pool_clamped (m : Int) (w : World) (ps : List Project)
    (hmk : ∀ s, w.mkdirParents s = none) :
    workerPoolSize m = max 1 m ∧ 1 ≤ workerPoolSize m ∧
    (m < 1 → workerPoolSize m = 1) ∧
    ∃ res evs, (sync_projects w ps).2 = Except.ok (res, evs) ∧
      List.Perm (resultNames res) (ps.map Project.name) := by
  refine ⟨rfl, le_max_left 1 m, fun hm => ?_, ?_⟩
  · simp [workerPoolSize, max_eq_left hm.le]
  · exact ⟨_, _, sync_projects_char w hmk ps,
      sync_ok_perm (sync_projects_char w hmk ps)⟩

theorem worker_pool_clamped_witness :
    workerPoolSize (-3) = max 1 (-3) ∧ 1 ≤ workerPoolSize (-3) ∧
    ((-3 : Int) < 1 → workerPoolSize (-3) = 1) ∧
    ∃ res evs, (sync_projects wMixed psMixed).2 = Except.ok (res, evs) ∧
      List.Perm (resultNames res) (psMixed.map Project.name) :=
  worker_pool_clamped (-3) wMixed psMixed (fun _ => rfl)

/-- C2: a project whose expanded path exists and whose `is_dirty`
check returns true is recorded as `Skipped`; its trace contains no
`pull` and no `push` operation, and within `sync_projects` it lands in
the `skipped` collection with callback label `"skipped (dirty)"`. -/
theorem dirty_skip_never_pulls_or_pushes (w : World) (p : Project)
    (hex : w.pathExists (w.expand p.path) = true)
    (hd : (is_dirty w p.path).2 = true) :
    syncOne w p = ([GitOp.status (w.expand p.path)],
      Except.ok SyncOutcome.skipped) ∧
    (∀ q, GitOp.pull q ∉ (syncOne w p).1 ∧ GitOp.push q ∉ (syncOne w p).1) ∧
    outcomeLabel SyncOutcome.skipped = "skipped (dirty)" ∧
    ∀ rest res evs, (sync_projects w (p :: rest)).2 = Except.ok (res, evs) →
      p.name ∈ res.skipped ∧ (p.name, "skipped (dirty)") ∈ evs := by
  have hd2 : pyStripChars (w.runStatus (w.expand p.path)).2.toList ≠ [] := by
    simpa [is_dirty] using hd
  have heq := syncOne_dirty_eq w p hex hd2
  refine ⟨heq, ?_, rfl, ?_⟩
  · intro q
    rw [heq]
    simp
  · intro rest res evs h
    obtain ⟨oc, res0, evs0, hoc, hr, hres, hevs⟩ := sync_ok_cons_inv h
    rw [heq] at hoc
    simp only [Except.ok.injEq] at hoc
    subst hoc
    constructor
    · rw [hres]
      simp [addOutcome]
    · rw [hevs]
      simp [outcomeLabel]

theorem dirty_skip_never_pulls_or_pushes_witness :
    syncOne wMixed pDirtyC = ([GitOp.status (wMixed.expand pDirtyC.path)],
      Except.ok SyncOutcome.skipped) ∧
    (∀ q, GitOp.pull q ∉ (syncOne wMixed pDirtyC).1 ∧
      GitOp.push q ∉ (syncOne wMixed pDirtyC).1) ∧
    outcomeLabel SyncOutcome.skipped = "skipped (dirty)" ∧
    ∀ rest res evs,
      (sync_projects wMixed (pDirtyC :: rest)).2 = Except.ok (res, evs) →
      pDirtyC.name ∈ res.skipped ∧ (pDirtyC.name, "skipped (dirty)") ∈ evs :=
  dirty_skip_never_pulls_or_pushes wMixed pDirtyC (by rfl) (by rfl)

/-- C3: for a present, clean project whose `git pull` exits non-zero,
the outcome is `Errored` with the pull's stderr, the trace contains no
`push` operation (push is gated on a successful pull), and within
`sync_projects` the project lands in `errored` with callback label
`"error: <message>"`. -/
theorem pull_failure_blocks_push (w : World) (p : Project)
    (hex : w.pathExists (w.expand p.path) = true)
    (hd : (is_dirty w p.path).2 = false)
    (hrc : (w.runPull (w.expand p.path)).1 ≠ 0) :
    syncOne w p = ([GitOp.status (w.expand p.path), GitOp.pull (w.expand p.path)],
      Except.ok (SyncOutcome.errored (w.runPull (w.expand p.path)).2)) ∧
    (∀ q, GitOp.push q ∉ (syncOne w p).1) ∧
    outcomeLabel (SyncOutcome.errored (w.runPull (w.expand p.path)).2) =
      "error: " ++ (w.runPull (w.expand p.path)).2 ∧
    ∀ rest res evs, (sync_projects w (p :: rest)).2 = Except.ok (res, evs) →
      (p.name, (w.runPull (w.expand p.path)).2) ∈ res.errored ∧
      (p.name, "error: " ++ (w.runPull (w.expand p.path)).2) ∈ evs := by
  have hd2 : pyStripChars (w.runStatus (w.expand p.path)).2.toList = [] := by
    simpa [is_dirty] using hd
  have heq := syncOne_clean_pullfail w p hex hd2 hrc
  refine ⟨heq, ?_, rfl, ?_⟩
  · intro q
    rw [heq]
    simp
  · intro rest res evs h
    obtain ⟨oc, res0, evs0, hoc, hr, hres, hevs⟩ := sync_ok_cons_inv h
    rw [heq] at hoc
    simp only [Except.ok.injEq] at hoc
    subst hoc
    constructor
    · rw [hres]
      simp [addOutcome]
    · rw [hevs]
      simp [outcomeLabel]

theorem pull_failure_blocks_push_witness :
    syncOne wPullFail pPresent = ([GitOp.status (wPullFail.expand pPresent.path),
      GitOp.pull (wPullFail.expand pPresent.path)],
      Except.ok (SyncOutcome.errored
        (wPullFail.runPull (wPullFail.expand pPresent.path)).2)) ∧
    (∀ q, GitOp.push q ∉ (syncOne wPullFail pPresent).1) ∧
    outcomeLabel (SyncOutcome.errored
      (wPullFail.runPull (wPullFail.expand pPresent.path)).2) =
      "error: " ++ (wPullFail.runPull (wPullFail.expand pPresent.path)).2 ∧
    ∀ rest res evs,
      (sync_projects wPullFail (pPresent :: rest)).2 = Except.ok (res, evs) →
      (pPresent.name, (wPullFail.runPull (wPullFail.expand pPresent.path)).2)
        ∈ res.errored ∧
      (pPresent.name,
        "error: " ++ (wPullFail.runPull (wPullFail.expand pPresent.path)).2)
        ∈ evs :=
  pull_failure_blocks_push wPullFail pPresent (by rfl) (by rfl) (by decide)

/-- C6: for a project whose expanded path does not exist (and whose
parent-directory creation succeeds — a filesystem failure there is the
separately analysed `OSError` case), exactly one clone is attempted
and no dirty-check, pull or push is ever performed; a zero exit
records `Cloned` (label `"cloned"`), a non-zero exit records
`Errored(stderr)` (label `"error: <stderr>"`). -/
theorem absent_path_clones_exactly_once (w : World) (p : Project)
    (hex : w.pathExists (w.expand p.path) = false)
    (hmk : w.mkdirParents (w.expand p.path) = none) :
    (syncOne w p).1 = [GitOp.mkdirParents (w.expand p.path),
      GitOp.clone p.clone_url (w.expand p.path)] ∧
    (∀ q, GitOp.status q ∉ (syncOne w p).1 ∧ GitOp.pull q ∉ (syncOne w p).1 ∧
      GitOp.push q ∉ (syncOne w p).1) ∧
    ((w.runClone p.clone_url (w.expand p.path)).1 = 0 →
      (syncOne w p).2 = Except.ok SyncOutcome.cloned) ∧
    ((w.runClone p.clone_url (w.expand p.path)).1 ≠ 0 →
      (syncOne w p).2 = Except.ok
        (SyncOutcome.errored (w.runClone p.clone_url (w.expand p.path)).2)) ∧
    ∀ rest res evs, (sync_projects w (p :: rest)).2 = Except.ok (res, evs) →
      ((w.runClone p.clone_url (w.expand p.path)).1 = 0 →
        p.name ∈ res.cloned ∧ (p.name, "cloned") ∈ evs) ∧
      ((w.runClone p.clone_url (w.expand p.path)).1 ≠ 0 →
        (p.name, (w.runClone p.clone_url (w.expand p.path)).2) ∈ res.errored ∧
        (p.name, "error: " ++ (w.runClone p.clone_url (w.expand p.path)).2)
          ∈ evs) := by
  by_cases hrc : (w.runClone p.clone_url (w.expand p.path)).1 = 0
  · have heq := syncOne_absent_cloned w p hex hmk hrc
    refine ⟨by rw [heq], ?_, fun _ => by rw [heq], fun hne => absurd hrc hne, ?_⟩
    · intro q
      rw [heq]
      simp
    · intro rest res evs h
      refine ⟨fun _ => ?_, fun hne => absurd hrc hne⟩
      obtain ⟨oc, res0, evs0, hoc, hr, hres, hevs⟩ := sync_ok_cons_inv h
      rw [heq] at hoc
      simp only [Except.ok.injEq] at hoc
      subst hoc
      constructor
      · rw [hres]
        simp [addOutcome]
      · rw [hevs]
        simp [outcomeLabel]
  · have heq := syncOne_absent_gitfail w p hex hmk hrc
    refine ⟨by rw [heq], ?_, fun h0 => absurd h0 hrc, fun _ => by rw [heq], ?_⟩
    · intro q
      rw [heq]
      simp
    · intro rest res evs h
      refine ⟨fun h0 => absurd h0 hrc, fun _ => ?_⟩
      obtain ⟨oc, res0, evs0, hoc, hr, hres, hevs⟩ := sync_ok_cons_inv h
      rw [heq] at hoc
      simp only [Except.ok.injEq] at hoc
      subst hoc
      constructor
      · rw [hres]
        simp [addOutcome]
      · rw [hevs]
        simp [outcomeLabel]

theorem absent_path_clones_exactly_once_witness :
    (syncOne wMixed pAbsentA).1 = [GitOp.mkdirParents (wMixed.expand pAbsentA.path),
      GitOp.clone pAbsentA.clone_url (wMixed.expand pAbsentA.path)] ∧
    (∀ q, GitOp.status q ∉ (syncOne wMixed pAbsentA).1 ∧
      GitOp.pull q ∉ (syncOne wMixed pAbsentA).1 ∧
      GitOp.push q ∉ (syncOne wMixed pAbsentA).1) ∧
    ((wMixed.runClone pAbsentA.clone_url (wMixed.expand pAbsentA.path)).1 = 0 →
      (syncOne wMixed pAbsentA).2 = Except.ok SyncOutcome.cloned) ∧
    ((wMixed.runClone pAbsentA.clone_url (wMixed.expand pAbsentA.path)).1 ≠ 0 →
      (syncOne wMixed pAbsentA).2 = Except.ok (SyncOutcome.errored
        (wMixed.runClone pAbsentA.clone_url (wMixed.expand pAbsentA.path)).2)) ∧
    ∀ rest res evs,
      (sync_projects wMixed (pAbsentA :: rest)).2 = Except.ok (res, evs) →
      ((wMixed.runClone pAbsentA.clone_url (wMixed.expand pAbsentA.path)).1 = 0 →
        pAbsentA.name ∈ res.cloned ∧ (pAbsentA.name, "cloned") ∈ evs) ∧
      ((wMixed.runClone pAbsentA.clone_url (wMixed.expand pAbsentA.path)).1 ≠ 0 →
        (pAbsentA.name,
          (wMixed.runClone pAbsentA.clone_url (wMixed.expand pAbsentA.path)).2)
          ∈ res.errored ∧
        (pAbsentA.name, "error: " ++
          (wMixed.runClone pAbsentA.clone_url (wMixed.expand pAbsentA.path)).2)
          ∈ evs) :=
  absent_path_clones_exactly_once wMixed pAbsentA (by rfl) (by rfl)

/-- C5 counterexample: with an absent path and a parent-directory
creation that raises `OSError("Permission denied")`, `sync_projects`
does not return a `SyncResult` with the project in `errored` — the
`OSError` propagates out of the call (only `GitError` is caught by
`_sync_one`), so the claim that a filesystem error surfaces as an
`Errored` outcome and is never fatal is false on this input. -/
theorem fs_error_fatal_counterexample :
    (sync_projects wFsFail [pFsFail]).2 =
      Except.error (PyErr.osError "Permission denied") := rfl

/-- C5 amended: a filesystem `OSError` raised while creating the
clone target's parent directories is NOT converted into an `Errored`
outcome — it escapes `_sync_one` and propagates out of
`sync_projects`, aborting the call; only a `GitError` (non-zero exit
of `git clone`) is recorded as `Errored(stderr)` and is non-fatal. -/
theorem fs_error_propagates_gitError_recorded (w : World) (p : Project)
    (m : String) (rest : List Project)
    (hex : w.pathExists (w.expand p.path) = false) :
    (w.mkdirParents (w.expand p.path) = some m →
      (syncOne w p).2 = Except.error (PyErr.osError m) ∧
      (sync_projects w (p :: rest)).2 = Except.error (PyErr.osError m)) ∧
    (w.mkdirParents (w.expand p.path) = none →
      (w.runClone p.clone_url (w.expand p.path)).1 ≠ 0 →
      (syncOne w p).2 = Except.ok
        (SyncOutcome.errored (w.runClone p.clone_url (w.expand p.path)).2)) := by
  constructor
  · intro hmk
    have heq := syncOne_absent_oserr w p m hex hmk
    refine ⟨by rw [heq], ?_⟩
    rw [sync_projects_cons]
    simp only [heq]
  · intro hmk hrc
    rw [syncOne_absent_gitfail w p hex hmk hrc]

theorem fs_error_propagates_gitError_recorded_witness :
    (wFsFail.mkdirParents (wFsFail.expand pFsFail.path) = some "Permission denied" →
      (syncOne wFsFail pFsFail).2 =
        Except.error (PyErr.osError "Permission denied") ∧
      (sync_projects wFsFail (pFsFail :: [])).2 =
        Except.error (PyErr.osError "Permission denied")) ∧
    (wFsFail.mkdirParents (wFsFail.expand pFsFail.path) = none →
      (wFsFail.runClone pFsFail.clone_url (wFsFail.expand pFsFail.path)).1 ≠ 0 →
      (syncOne wFsFail pFsFail).2 = Except.ok (SyncOutcome.errored
        (wFsFail.runClone pFsFail.clone_url (wFsFail.expand pFsFail.path)).2)) :=
  fs_error_propagates_gitError_recorded wFsFail pFsFail "Permission denied" []
    (by rfl)

/-- C10: `is_dirty` never raises (its Lean type is total): it returns
true exactly when the stripped stdout of `git status --porcelain` is
non-empty, with the return code ignored entirely; so when the status
subprocess fails with empty stdout (any non-zero exit — e.g. the path
is not a git repository), `is_dirty` returns false and the engine
proceeds to attempt `pull` on that path. -/
theorem is_dirty_total_status_failure_proceeds_to_pull (w : World) (p : Project)
    (hex : w.pathExists (w.expand p.path) = true)
    (hout : pyStripChars (w.runStatus (w.expand p.path)).2.toList = []) :
    (is_dirty w p.path).2 = false ∧
    ((is_dirty w p.path).2 = true ↔
      pyStripChars (w.runStatus (w.expand p.path)).2.toList ≠ []) ∧
    GitOp.pull (w.expand p.path) ∈ (syncOne w p).1 := by
  refine ⟨by simp [is_dirty, hout]; exact hout, by simp [is_dirty], ?_⟩
  by_cases hpull : (w.runPull (w.expand p.path)).1 = 0
  · by_cases hpush : (w.runPush (w.expand p.path)).1 = 0
    · rw [syncOne_clean_synced w p hex hout hpull hpush]
      simp
    · rw [syncOne_clean_pushfail w p hex hout hpull hpush]
      simp
  · rw [syncOne_clean_pullfail w p hex hout hpull]
    simp

theorem is_dirty_total_status_failure_proceeds_to_pull_witness :
    (is_dirty wStatusFail pPresent.path).2 = false ∧
    ((is_dirty wStatusFail pPresent.path).2 = true ↔
      pyStripChars
        (wStatusFail.runStatus (wStatusFail.expand pPresent.path)).2.toList ≠ []) ∧
    GitOp.pull (wStatusFail.expand pPresent.path) ∈ (syncOne wStatusFail pPresent).1 :=
  is_dirty_total_status_failure_proceeds_to_pull wStatusFail pPresent
    (by rfl) (by rfl)

/-- C9 counterexample: `track_project` checks only `clone_url` for
duplicates — with `git@h:a/foo.git` already tracked under the name
`foo`, tracking `git@h:b/foo.git` (a different clone URL) succeeds and
saves a second project also named `foo`, so the registry does not keep
names unique. -/
theorem duplicate_name_tracked_counterexample :
    track_project [] [⟨"git@h:a/foo.git", "foo", "foo"⟩] "git@h:b/foo.git" none =
      Except.ok ([⟨"git@h:a/foo.git", "foo", "foo"⟩,
        ⟨"git@h:b/foo.git", "foo", "foo"⟩], ⟨"git@h:b/foo.git", "foo", "foo"⟩) ∧
    (⟨"git@h:b/foo.git", "foo", "foo"⟩ : Project).name =
      (⟨"git@h:a/foo.git", "foo", "foo"⟩ : Project).name ∧
    (⟨"git@h:b/foo.git", "foo", "foo"⟩ : Project).clone_url ≠
      (⟨"git@h:a/foo.git", "foo", "foo"⟩ : Project).clone_url :=
  ⟨rfl, rfl, by decide⟩

/-- C9 amended: `track_project` enforces uniqueness of `clone_url`
only — every successful call appends exactly one project whose clone
URL was not yet tracked, so clone-URL uniqueness is preserved; name
uniqueness is not checked and duplicate names can be saved. -/
theorem track_project_clone_url_unique_only (idx : List RemoteRepo)
    (projects ps2 : List Project) (nu : String) (path : Option String)
    (proj : Project)
    (hnd : (projects.map Project.clone_url).Nodup)
    (h : track_project idx projects nu path = Except.ok (ps2, proj)) :
    ps2 = projects ++ [proj] ∧
    proj.clone_url ∉ projects.map Project.clone_url ∧
    (ps2.map Project.clone_url).Nodup := by
  unfold track_project at h
  cases hres : resolve_clone_url idx nu with
  | error e => rw [hres] at h; simp at h
  | ok cu =>
    rw [hres] at h
    simp only [] at h
    by_cases hany : (projects.any fun p => p.clone_url == cu) = true
    · rw [if_pos hany] at h
      simp at h
    · rw [if_neg hany] at h
      simp only [Except.ok.injEq, Prod.mk.injEq] at h
      obtain ⟨h1, h2⟩ := h
      rw [h2] at h1
      have hcu : proj.clone_url = cu := by
        cases path with
        | none => rw [← h2]; simp [derive_project]
        | some pth => rw [← h2]
      have hnotin : proj.clone_url ∉ projects.map Project.clone_url := by
        rw [hcu]
        intro hmem
        apply hany
        rw [List.any_eq_true]
        obtain ⟨q, hq, hq2⟩ := List.mem_map.mp hmem
        exact ⟨q, hq, by rw [hq2]; simp⟩
      refine ⟨h1.symm, hnotin, ?_⟩
      rw [← h1, List.map_append, List.nodup_append]
      refine ⟨hnd, by simp, ?_⟩
      intro a ha hb
      simp only [List.map_cons, List.map_nil, List.mem_singleton] at hb
      rw [hb] at ha
      exact hnotin ha

theorem track_project_clone_url_unique_only_witness :
    ([⟨"git@h:a/foo.git", "foo", "foo"⟩, ⟨"git@h:b/bar.git", "bar", "bar"⟩] :
        List Project) =
      [⟨"git@h:a/foo.git", "foo", "foo"⟩] ++ [⟨"git@h:b/bar.git", "bar", "bar"⟩] ∧
    (⟨"git@h:b/bar.git", "bar", "bar"⟩ : Project).clone_url ∉
      ([⟨"git@h:a/foo.git", "foo", "foo"⟩] : List Project).map Project.clone_url ∧
    (([⟨"git@h:a/foo.git", "foo", "foo"⟩, ⟨"git@h:b/bar.git", "bar", "bar"⟩] :
        List Project).map Project.clone_url).Nodup :=
  track_project_clone_url_unique_only []
    [⟨"git@h:a/foo.git", "foo", "foo"⟩]
    [⟨"git@h:a/foo.git", "foo", "foo"⟩, ⟨"git@h:b/bar.git", "bar", "bar"⟩]
    "git@h:b/bar.git" none ⟨"git@h:b/bar.git", "bar", "bar"⟩
    (by decide) (by rfl)
